import Mathlib

/- Verification development for the ChunkAtlas region-container reader and
   NBT tag-tree decoder.  The definitions below are a shallow embedding of
   src/Source/SaveData/MCAFile.cpp, src/Source/SaveData/ChunkNBT.cpp,
   src/Source/SaveData/ChunkNBT.h, src/Source/SaveData/NBTTag.h and
   src/Source/WorldInfo/{ChunkData,Structure}.cpp.  Machine integers are
   modelled as Nat/Int with explicit two's-complement reinterpretation and
   explicit mod-2^32 where C++ unsigned arithmetic wraps.  C++ strings are
   modelled as byte lists (List Nat). -/

namespace ChunkAtlas

/-- Bytes of a string literal (used for the reserved key names and the
structure-name table, which are all ASCII). -/
def strBytes (s : String) : List Nat := s.toList.map Char.toNat

/-- Two's-complement reinterpretation of a `w`-byte big-endian value, as done
by `ChunkNBT::readBytes<T>` for the signed types int8/16/32/64. -/
def toSigned (w : Nat) (n : Nat) : Int :=
  if n < 2 ^ (8 * w - 1) then (n : Int) else (n : Int) - 2 ^ (8 * w)

/-- `extractedData[i]` as an unsigned char (out-of-range list entries are
reduced mod 256; in-range entries of a real buffer are already < 256). -/
def byteAt (buf : List Nat) (i : Nat) : Nat := buf.getD i 0 % 256

/-- The byte-accumulation loop of `ChunkNBT::readBytes<T>` (ChunkNBT.h).
Reading past the end of the buffer returns `none` (the C++ returns 0), with
the cursor left after the bytes consumed before the end was hit. -/
def readRaw : Nat → List Nat → Nat → Nat → Option Nat × Nat
  | 0, _, i, acc => (some acc, i)
  | w + 1, buf, i, acc =>
    if i < buf.length then readRaw w buf (i + 1) (acc * 256 + byteAt buf i)
    else (none, i)

/-- `ChunkNBT::readBytes<T>` for a `w`-byte signed integer type: the value
read (0 on overrun) and the new cursor. -/
def readSigned (w : Nat) (buf : List Nat) (i : Nat) : Int × Nat :=
  match readRaw w buf i 0 with
  | (none, j) => (0, j)
  | (some n, j) => (toSigned w n, j)

/-- Keys::inhabitedTime (ChunkNBT.cpp). -/
def kInhabitedTime : List Nat := strBytes "InhabitedTime"

/-- Keys::lastUpdate. -/
def kLastUpdate : List Nat := strBytes "LastUpdate"

/-- Keys::biome. -/
def kBiomes : List Nat := strBytes "Biomes"

/-- Keys::structure. -/
def kStructures : List Nat := strBytes "Structures"

/-- Keys::structureRefs. -/
def kReferences : List Nat := strBytes "References"

/-- `parseStructure` (Structure.cpp): structure name to enum value,
`Structure::unknown = -1` when the name has no match. -/
def parseStructure (name : List Nat) : Int :=
  if name = strBytes "Monument" then 4
  else if name = strBytes "Mansion" then 5
  else if name = strBytes "Swamp_Hut" then 10
  else if name = strBytes "Mineshaft" then 0
  else if name = strBytes "Igloo" then 11
  else if name = strBytes "Stronghold" then 6
  else if name = strBytes "Desert_Pyramid" then 7
  else if name = strBytes "Jungle_Pyramid" then 8
  else if name = strBytes "Pillager_Outpost" then 9
  else if name = strBytes "Village" then 1
  else if name = strBytes "Ocean_Ruin" then 12
  else if name = strBytes "Shipwreck" then 13
  else if name = strBytes "Buried_Treasure" then 14
  else if name = strBytes "EndCity" then 2
  else if name = strBytes "Fortress" then 3
  else -1

/-- Decoder failure: `badDispatch` models the `std::bad_function_call` thrown
when `parseTag[type]` yields the default-constructed empty handler for a tag
kind outside `NBTTag`; `nameResize` models the `std::length_error` from
`name.resize(nameLength)` with a negative length; `outOfFuel` is the fuel
bound of this embedding (unreachable for the fuel used by
`getChunkDataF`, whose nesting depth is bounded by the buffer length). -/
inductive DErr where
  | badDispatch
  | nameResize
  | outOfFuel
deriving DecidableEq, Repr

/-- The character-reading loop of `readName`: `remaining` entries left to
replace, `acc` the chars already written.  A NUL char is written and then
ends the loop early, leaving the `!` fill characters from `resize` behind. -/
def readNameChars : Nat → List Nat → Nat → List Nat → List Nat × Nat
  | 0, _, i, acc => (acc, i)
  | r + 1, buf, i, acc =>
    let (v, j) := readSigned 1 buf i
    let b := (v % 256).toNat
    if b = 0 then (acc ++ b :: List.replicate r 33, j)
    else readNameChars r buf j (acc ++ [b])

/-- `readName` (ChunkNBT.cpp): unnamed entries get the empty name; otherwise
a 2-byte length then that many chars. -/
def readNameF (isNamed : Bool) (buf : List Nat) (i : Nat) :
    Except DErr (List Nat × Nat) :=
  if isNamed then
    let (len, j) := readSigned 2 buf i
    if len < 0 then .error .nameResize
    else .ok (readNameChars len.toNat buf j [])
  else .ok ([], i)

/-- The decoder state captured by the locals of `ChunkNBT::getChunkData`:
cursor, open-compound stack, tracked longs, biome/structure-reference flags,
the tracked structure, the biome sample list and the structure set. -/
structure PSt where
  idx : Nat
  openTags : List (List Nat)
  lastUpdate : Int
  inhabitedTime : Int
  inBiomeList : Bool
  inStructRefs : Bool
  currentStruct : Int
  currentStructName : List Nat
  biomes : List Int
  structures : List Int
deriving DecidableEq, Repr

/-- The initial decoder state. -/
def initPSt : PSt :=
  { idx := 0, openTags := [], lastUpdate := 0, inhabitedTime := 0,
    inBiomeList := false, inStructRefs := false, currentStruct := -1,
    currentStructName := [], biomes := [], structures := [] }

/-- `std::set` insertion: no duplicates (membership only). -/
def setInsert (s : List Int) (x : Int) : List Int :=
  if x ∈ s then s else s ++ [x]

/-- The biome fold loop `while (v < 0) v += 128`, with explicit fuel so that
it reduces structurally; `foldBiomeVal` supplies fuel `(-v).toNat`, which
dominates the number of iterations (each iteration adds 128). -/
def foldBiomeGo : Nat → Int → Int
  | 0, v => v
  | n + 1, v => if v < 0 then foldBiomeGo n (v + 128) else v

/-- The biome fold of the byte and int handlers: add 128 until
non-negative. -/
def foldBiomeVal (v : Int) : Int := foldBiomeGo (-v).toNat v

/-- `!openTags.empty() && openTags.top() == x`. -/
def stackTopIs (l : List (List Nat)) (x : List Nat) : Bool :=
  match l with
  | [] => false
  | top :: _ => decide (top = x)

/-- Whether `parseTag` holds a real handler for the tag-kind value `k`:
exactly the 13 `NBTTag` values 0..12 are assigned handlers; any other
dispatched value yields the empty default `std::function`. -/
def dispatchDefined (k : Int) : Bool := decide (0 ≤ k ∧ k ≤ 12)

/-- Exception propagation of this translation: evaluate `x`; a thrown
exception aborts, otherwise continue with `f` on the value. -/
def exSeq {A B : Type} (x : Except DErr A) (f : A → Except DErr B) :
    Except DErr B :=
  match x with
  | .error e => .error e
  | .ok a => f a

/-- The element loops `for (int i = 0; i < length; i++) step(...)` of the
list and array handlers: run `step` that many times, propagating a thrown
exception. -/
def parseManyAux (step : PSt → Except DErr PSt) : Nat → PSt → Except DErr PSt
  | 0, st => .ok st
  | c + 1, st => exSeq (step st) (fun st2 => parseManyAux step c st2)

/-- The `parseTag[NBTTag::tEnd]` lambda: reads nothing, pops the compound
stack, maintains the structure-reference flags. -/
def tagEnd (st : PSt) : Except DErr PSt :=
  match st.openTags with
  | [] => .ok st
  | top :: rest =>
    if st.inStructRefs ∧ top = kReferences then
      .ok { st with inStructRefs := false, openTags := rest }
    else if st.inStructRefs ∧ top = st.currentStructName then
      .ok { st with currentStruct := -1, currentStructName := [], openTags := rest }
    else .ok { st with openTags := rest }

/-- The `parseTag[NBTTag::tByte]` lambda: biome samples are folded up by 128
until non-negative. -/
def tagByte (isNamed : Bool) (buf : List Nat) (st : PSt) : Except DErr PSt :=
  exSeq (readNameF isNamed buf st.idx) (fun nj =>
    let v := (readSigned 1 buf nj.2).1
    let j2 := (readSigned 1 buf nj.2).2
    if st.inBiomeList then
      .ok { st with idx := j2, biomes := st.biomes ++ [foldBiomeVal v] }
    else .ok { st with idx := j2 })

/-- The `parseTag[NBTTag::tShort]` lambda: biome samples recorded raw,
unfolded. -/
def tagShort (isNamed : Bool) (buf : List Nat) (st : PSt) : Except DErr PSt :=
  exSeq (readNameF isNamed buf st.idx) (fun nj =>
    let v := (readSigned 2 buf nj.2).1
    let j2 := (readSigned 2 buf nj.2).2
    if st.inBiomeList then
      .ok { st with idx := j2, biomes := st.biomes ++ [v] }
    else .ok { st with idx := j2 })

/-- The `parseTag[NBTTag::tInt]` lambda: biome samples folded like bytes. -/
def tagInt (isNamed : Bool) (buf : List Nat) (st : PSt) : Except DErr PSt :=
  exSeq (readNameF isNamed buf st.idx) (fun nj =>
    let v := (readSigned 4 buf nj.2).1
    let j2 := (readSigned 4 buf nj.2).2
    if st.inBiomeList then
      .ok { st with idx := j2, biomes := st.biomes ++ [foldBiomeVal v] }
    else .ok { st with idx := j2 })

/-- The `parseTag[NBTTag::tLong]` lambda: named InhabitedTime / LastUpdate
values are recorded, everything else discarded. -/
def tagLong (isNamed : Bool) (buf : List Nat) (st : PSt) : Except DErr PSt :=
  exSeq (readNameF isNamed buf st.idx) (fun nj =>
    let v := (readSigned 8 buf nj.2).1
    let j2 := (readSigned 8 buf nj.2).2
    if nj.1 = [] then .ok { st with idx := j2 }
    else if nj.1 = kLastUpdate then
      .ok { st with idx := j2, lastUpdate := v }
    else if nj.1 = kInhabitedTime then
      .ok { st with idx := j2, inhabitedTime := v }
    else .ok { st with idx := j2 })

/-- The `parseTag[NBTTag::tFloat]` lambda: read and discard 4 bytes. -/
def tagFloat (isNamed : Bool) (buf : List Nat) (st : PSt) : Except DErr PSt :=
  exSeq (readNameF isNamed buf st.idx) (fun nj =>
    .ok { st with idx := (readSigned 4 buf nj.2).2 })

/-- The `parseTag[NBTTag::tDouble]` lambda: read and discard 8 bytes. -/
def tagDouble (isNamed : Bool) (buf : List Nat) (st : PSt) : Except DErr PSt :=
  exSeq (readNameF isNamed buf st.idx) (fun nj =>
    .ok { st with idx := (readSigned 8 buf nj.2).2 })

/-- The `parseTag[NBTTag::tString]` lambda: the name, then a length-prefixed
value, both discarded. -/
def tagString (isNamed : Bool) (buf : List Nat) (st : PSt) : Except DErr PSt :=
  exSeq (readNameF isNamed buf st.idx) (fun nj =>
    exSeq (readNameF true buf nj.2) (fun vj =>
      .ok { st with idx := vj.2 }))

/-- The `parseTag[NBTTag::tByteArray]` lambda: 4-byte element count, then
that many unnamed tByte entries (`step` is the handler invocation
`parseTag[NBTTag::tByte](false)`); the biome flag is set for a "Biomes"
name and unconditionally cleared afterwards. -/
def tagByteArray (step : PSt → Except DErr PSt) (isNamed : Bool)
    (buf : List Nat) (st : PSt) : Except DErr PSt :=
  exSeq (readNameF isNamed buf st.idx) (fun nj =>
    let flag := if nj.1 = kBiomes then true else st.inBiomeList
    let len := (readSigned 4 buf nj.2).1
    let j2 := (readSigned 4 buf nj.2).2
    exSeq (parseManyAux step len.toNat { st with idx := j2, inBiomeList := flag })
      (fun st2 => .ok { st2 with inBiomeList := false }))

/-- The `parseTag[NBTTag::tList]` lambda: 1-byte element tag kind, 4-byte
count, then that many unnamed entries dispatched through the associative
table (`step`); biome flag handling as for byte arrays. -/
def tagList (step : Int → PSt → Except DErr PSt) (isNamed : Bool)
    (buf : List Nat) (st : PSt) : Except DErr PSt :=
  exSeq (readNameF isNamed buf st.idx) (fun nj =>
    let flag := if nj.1 = kBiomes then true else st.inBiomeList
    let t := (readSigned 1 buf nj.2).1
    let j2 := (readSigned 1 buf nj.2).2
    let len := (readSigned 4 buf j2).1
    let j3 := (readSigned 4 buf j2).2
    exSeq (parseManyAux (step t) len.toNat
        { st with idx := j3, inBiomeList := flag })
      (fun st2 => .ok { st2 with inBiomeList := false }))

/-- The `parseTag[NBTTag::tCompound]` lambda: resolve a structure name
inside an active references section, or activate the references section
when "References" opens directly under "Structures"; push the name. -/
def tagCompound (isNamed : Bool) (buf : List Nat) (st : PSt) :
    Except DErr PSt :=
  exSeq (readNameF isNamed buf st.idx) (fun nj =>
    if st.inStructRefs ∧ st.currentStructName = [] then
      let cs := parseStructure nj.1
      let nm := if cs ≠ -1 then nj.1 else st.currentStructName
      .ok { st with idx := nj.2, currentStruct := cs, currentStructName := nm, openTags := nj.1 :: st.openTags }
    else if stackTopIs st.openTags kStructures ∧ nj.1 = kReferences then
      .ok { st with idx := nj.2, inStructRefs := true, openTags := nj.1 :: st.openTags }
    else .ok { st with idx := nj.2, openTags := nj.1 :: st.openTags })

/-- The `parseTag[NBTTag::tIntArray]` lambda: like tByteArray with tInt
elements. -/
def tagIntArray (step : PSt → Except DErr PSt) (isNamed : Bool)
    (buf : List Nat) (st : PSt) : Except DErr PSt :=
  exSeq (readNameF isNamed buf st.idx) (fun nj =>
    let flag := if nj.1 = kBiomes then true else st.inBiomeList
    let len := (readSigned 4 buf nj.2).1
    let j2 := (readSigned 4 buf nj.2).2
    exSeq (parseManyAux step len.toNat { st with idx := j2, inBiomeList := flag })
      (fun st2 => .ok { st2 with inBiomeList := false }))

/-- The `parseTag[NBTTag::tLongArray]` lambda: elements read as tLong; no
biome flag handling at all (a "Biomes" name only triggers a diagnostic
print). -/
def tagLongArray (step : PSt → Except DErr PSt) (isNamed : Bool)
    (buf : List Nat) (st : PSt) : Except DErr PSt :=
  exSeq (readNameF isNamed buf st.idx) (fun nj =>
    let len := (readSigned 4 buf nj.2).1
    let j2 := (readSigned 4 buf nj.2).2
    parseManyAux step len.toNat { st with idx := j2 })

/-- The handler `parseTag[k](isNamed)` for a defined tag kind `k` in 0..12,
dispatching to the lambda for that kind.  The table lookup guard for
recursively dispatched list elements is inlined (`callTag` below is the
same guard): an element kind without a handler invokes the empty default
`std::function`, which throws. -/
def parseTagF : Nat → Int → Bool → List Nat → PSt → Except DErr PSt
  | 0, _, _, _, _ => .error .outOfFuel
  | fuel + 1, k, isNamed, buf, st =>
    if k = 0 then tagEnd st
    else if k = 1 then tagByte isNamed buf st
    else if k = 2 then tagShort isNamed buf st
    else if k = 3 then tagInt isNamed buf st
    else if k = 4 then tagLong isNamed buf st
    else if k = 5 then tagFloat isNamed buf st
    else if k = 6 then tagDouble isNamed buf st
    else if k = 7 then
      tagByteArray (fun s => parseTagF fuel 1 false buf s) isNamed buf st
    else if k = 8 then tagString isNamed buf st
    else if k = 9 then
      tagList (fun t s => if dispatchDefined t then parseTagF fuel t false buf s
                          else .error .badDispatch) isNamed buf st
    else if k = 10 then tagCompound isNamed buf st
    else if k = 11 then
      tagIntArray (fun s => parseTagF fuel 3 false buf s) isNamed buf st
    else
      tagLongArray (fun s => parseTagF fuel 4 false buf s) isNamed buf st

/-- `parseTag[k](isNamed)` through the associative table: an undefined key
yields the empty default handler, whose invocation throws. -/
def callTag (fuel : Nat) (k : Int) (isNamed : Bool) (buf : List Nat)
    (st : PSt) : Except DErr PSt :=
  if dispatchDefined k then parseTagF fuel k isNamed buf st
  else .error .badDispatch

/-- The top-level do/while loop of `ChunkNBT::getChunkData`: read a tag-kind
byte, record the tracked structure on any non-terminator entry inside it,
dispatch, and continue while the compound stack is non-empty and the cursor
is inside the buffer.  `inner` is the fuel handed to the tag handlers. -/
def mainLoop : Nat → Nat → List Nat → PSt → Except DErr PSt
  | _, 0, _, _ => .error .outOfFuel
  | inner, fuel + 1, buf, st =>
    let t := (readSigned 1 buf st.idx).1
    let j := (readSigned 1 buf st.idx).2
    let st1 : PSt := { st with idx := j }
    let st2 : PSt :=
      if st1.inStructRefs ∧ st1.currentStruct ≠ -1 ∧ t ≠ 0 then
        { st1 with structures := setInsert st1.structures st1.currentStruct }
      else st1
    exSeq (callTag inner t true buf st2) (fun st3 =>
      if st3.openTags ≠ [] ∧ st3.idx < buf.length then
        mainLoop inner fuel buf st3
      else .ok st3)

/-- The `ChunkData` record: position, tracked longs, biome histogram
(assoc list built by `addBiome` in sample order; `std::map` keeps the same
counts, only its iteration order differs) and the structure set. -/
structure ChunkDataM where
  pos : Int × Int
  inhabitedTime : Int
  lastUpdate : Int
  biomeCounts : List (Int × Nat)
  structures : List Int
deriving DecidableEq, Repr

/-- `ChunkData::addBiome`: first occurrence inserts count 1, later
occurrences increment. -/
def addBiomeM : List (Int × Nat) → Int → List (Int × Nat)
  | [], b => [(b, 1)]
  | (k, c) :: t, b => if k = b then (k, c + 1) :: t else (k, c) :: addBiomeM t b

/-- Occurrence count of biome code `b` in the histogram (0 when absent). -/
def biomeCount (cd : ChunkDataM) (b : Int) : Nat :=
  match cd.biomeCounts.lookup b with
  | some c => c
  | none => 0

/-- `ChunkNBT::getChunkData`: run the parse loop from the initial state and
package the results.  The fuel `buf.length + 2` dominates both the number
of top-level iterations (each consumes at least the tag byte) and the
nesting depth (each nested entry starts at least one byte further in;
entries past the end of the buffer never recurse, since their length reads
yield 0). -/
def getChunkDataF (buf : List Nat) (pos : Int × Int) :
    Except DErr ChunkDataM :=
  exSeq (mainLoop (buf.length + 2) (buf.length + 2) buf initPSt) (fun st =>
    .ok { pos := pos, inhabitedTime := st.inhabitedTime,
          lastUpdate := st.lastUpdate,
          biomeCounts := st.biomes.foldl addBiomeM [],
          structures := st.structures })

/- ===== The region container reader, MCAFile.cpp ===== -/

/-- A region container file: its size and its byte contents (reads reduce
mod 256, as the C++ reads unsigned chars). -/
structure MFile where
  size : Nat
  data : Nat → Nat

/-- The `std::ifstream` state visible to MCAFile: read position, eofbit and
failbit (badbit is never set by these operations and is omitted). -/
structure FS where
  pos : Nat
  eofb : Bool
  failb : Bool
deriving DecidableEq, Repr

/-- The `readBytes` lambda of `MCAFile::MCAFile`: refuse on eof (the bad()
|| eof() guard), fail without reading on failbit (the stream sentry), else
read up to `n` bytes; a short read sets eofbit and failbit.  Returns
(gcount, bytes read, new state). -/
def readBytesS (f : MFile) (n : Nat) (fs : FS) : Nat × List Nat × FS :=
  if fs.eofb then (0, [], fs)
  else if fs.failb then (0, [], fs)
  else
    let avail := f.size - fs.pos
    let got := min n avail
    let dat := (List.range got).map (fun k => f.data (fs.pos + k) % 256)
    let fs2 : FS :=
      if got < n then { pos := fs.pos + got, eofb := true, failb := true }
      else { fs with pos := fs.pos + got }
    (got, dat, fs2)

/-- Big-endian assembly of a byte list. -/
def beNat (l : List Nat) : Nat := l.foldl (fun a b => a * 256 + b) 0

/-- The `readInt` lambda: `n` big-endian bytes into an unsigned integer,
0 when more than 8 bytes are requested or the read is short. -/
def readIntS (f : MFile) (n : Nat) (fs : FS) : Nat × FS :=
  if 8 < n then (0, fs)
  else
    let r := readBytesS f n fs
    if r.1 = n then (beNat r.2.1, r.2.2) else (0, r.2.2)

/-- `seekg`: clears eofbit first; does nothing when failbit is set. -/
def seekgS (off : Nat) (fs : FS) : FS :=
  let fs1 := { fs with eofb := false }
  if fs1.failb then fs1 else { fs1 with pos := off }

/-- Reading the compressed chunk payload: `chunkData.resize(n)` zero-fills,
then the read overwrites the prefix actually available, so the buffer handed
to ChunkNBT always has length `n`, zero-padded on a short read. -/
def readChunkPayload (f : MFile) (n : Nat) (fs : FS) : List Nat × FS :=
  let r := readBytesS f n fs
  (r.2.1 ++ List.replicate (n - r.1) 0, r.2.2)

/-- The body of the per-entry loop of `MCAFile::MCAFile` for table entry
`i`: returns the (position, payload) pair pushed onto `loadedChunks` (each
such pair is decompressed and decoded into one ChunkData) or `none` when
the entry is absent or skipped, together with the stream state.
`tb` is the location-table buffer, `bytesRead` the table bytes read.
`sectorOffset * 4096` is a 32-bit computation in the C++ and is reduced
accordingly. -/
def processEntry (f : MFile) (regionX regionY : Int) (tb : Nat → Nat)
    (bytesRead : Nat) (i : Nat) (fs : FS) :
    Option ((Int × Int) × List Nat) × FS :=
  let chunkIndex := 4 * i
  if bytesRead ≤ chunkIndex then (none, fs)
  else
    let b0 := tb chunkIndex
    let b1 := tb (chunkIndex + 1)
    let b2 := tb (chunkIndex + 2)
    let b3 := tb (chunkIndex + 3)
    if b0 = 0 ∧ b1 = 0 ∧ b2 = 0 ∧ b3 = 0 then (none, fs)
    else
      let chunkX : Int := regionX + (i % 32 : Nat)
      let chunkY : Int := regionY + (i / 32 : Nat)
      let sectorOffset := b0 * 65536 + b1 * 256 + b2
      let sectorCount := b3
      let byteOffset := sectorOffset * 4096 % 2 ^ 32
      if f.size < byteOffset then (none, fs)
      else
        let fs1 := seekgS byteOffset fs
        if fs1.failb ∨ fs1.eofb then (none, fs1)
        else
          let chunkByteSize := (readIntS f 4 fs1).1
          let fs2 := (readIntS f 4 fs1).2
          -- the compression-type byte is read but never inspected
          let fs3 := (readIntS f 1 fs2).2
          let byteSectorCount :=
            chunkByteSize / 4096 + (if chunkByteSize % 4096 > 0 then 1 else 0)
          if sectorCount < byteSectorCount then (none, fs3)
          else
            let rp := readChunkPayload f chunkByteSize fs3
            (some ((chunkX, chunkY), rp.1), rp.2)

/-- The entry loop over all 1024 location-table entries, accumulating the
pushed (position, payload) pairs in order. -/
def mcaScan (f : MFile) (rx ry : Int) (tb : Nat → Nat) (br : Nat) :
    Nat → Nat → FS → List ((Int × Int) × List Nat) →
    List ((Int × Int) × List Nat)
  | 0, _, _, acc => acc
  | r + 1, i, fs, acc =>
    let pr := processEntry f rx ry tb br i fs
    match pr.1 with
    | some e => mcaScan f rx ry tb br r (i + 1) pr.2 (acc ++ [e])
    | none => mcaScan f rx ry tb br r (i + 1) pr.2 acc

/-- `std::stoi` failure: `stoiInvalid` is `std::invalid_argument`,
`stoiRange` is `std::out_of_range`.  These exceptions are not caught in
MCAFile and escape the constructor. -/
inductive MCAErr where
  | stoiInvalid
  | stoiRange
deriving DecidableEq, Repr

/-- The character set `"-0123456789"` used by `find_first_of`. -/
def numChars : List Nat := strBytes "-0123456789"

/-- `name.find_first_of(numChars)` (none = npos). -/
def findFirstOf (s : List Nat) (cs : List Nat) : Option Nat :=
  s.findIdx? (fun c => decide (c ∈ cs))

/-- `name.find(c, start)` (none = npos). -/
def findFrom (s : List Nat) (c : Nat) (start : Nat) : Option Nat :=
  match (s.drop start).findIdx? (fun x => decide (x = c)) with
  | some k => some (start + k)
  | none => none

/-- ASCII decimal digit test. -/
def isDigitB (c : Nat) : Bool := decide (48 ≤ c ∧ c ≤ 57)

/-- `std::stoi`: skip whitespace, optional sign, a non-empty digit run;
`invalid_argument` when no digits follow, `out_of_range` outside int. -/
def stoiF (s : List Nat) : Except MCAErr Int :=
  let s1 := s.dropWhile
    (fun c => decide (c = 32 ∨ c = 9 ∨ c = 10 ∨ c = 11 ∨ c = 12 ∨ c = 13))
  let signAndRest : Bool × List Nat :=
    match s1 with
    | 45 :: t => (true, t)
    | 43 :: t => (false, t)
    | _ => (false, s1)
  let digits := signAndRest.2.takeWhile isDigitB
  if digits = [] then .error .stoiInvalid
  else
    let m : Int := digits.foldl (fun a c => a * 10 + ((c : Int) - 48)) 0
    let v : Int := if signAndRest.1 then -m else m
    if v < -2147483648 ∨ 2147483647 < v then .error .stoiRange else .ok v

/-- The filename scan of `MCAFile::MCAFile` (lines 20-33): the positions of
the first numeric character, the following two dots, and the two `stoi`
calls scaled by 32 chunks.  `.ok none` is the checked early-return path
("Can't parse coordinates"); `.error` is an escaping stoi exception. -/
def parseRegionCoords (name : List Nat) : Except MCAErr (Option (Int × Int)) :=
  match findFirstOf name numChars with
  | none => .ok none
  | some xStart =>
    match findFrom name 46 xStart with
    | none => .ok none
    | some xEnd =>
      let yStart := xEnd + 1
      match findFrom name 46 yStart with
      | none => .ok none
      | some yEnd =>
        match stoiF ((name.drop xStart).take (xEnd - xStart)) with
        | .error e => .error e
        | .ok x =>
          match stoiF ((name.drop yStart).take (yEnd - yStart)) with
          | .error e => .error e
          | .ok y => .ok (some (32 * x, 32 * y))

/-- `MCAFile::MCAFile` up to the hand-off of each payload to
ChunkNBT/getChunkData: parse the filename, read the 4096-byte location
table, then scan all 1024 entries.  `.ok []` covers the reported
file-scoped failure; `.error` is an escaping stoi exception.  Table bytes
beyond a short table read are uninitialized stack memory in the C++ and
modelled as 0 (they sit behind the `chunkIndex >= bytesRead` guard). -/
def mcaLoadEntries (name : List Nat) (f : MFile) :
    Except MCAErr (List ((Int × Int) × List Nat)) :=
  match parseRegionCoords name with
  | .error e => .error e
  | .ok none => .ok []
  | .ok (some (rx, ry)) =>
    let fs0 : FS := { pos := 0, eofb := false, failb := false }
    let br := (readBytesS f 4096 fs0).1
    let fs1 := (readBytesS f 4096 fs0).2.2
    let tb := fun j => if j < br then f.data j % 256 else 0
    .ok (mcaScan f rx ry tb br 1024 0 fs1 [])

/- ===== The decompression loop, ChunkNBT::ChunkNBT ===== -/

/-- `Z_STREAM_END`. -/
def zStreamEnd : Int := 1

/-- The switch in the inflate loop body rewrites `Z_NEED_DICT` (2) to
`Z_DATA_ERROR` (-3); every other inflate result is kept as-is (errors are
printed, not acted upon). -/
def inflateStepResult (r : Int) : Int := if r = 2 then -3 else r

/-- `zResult` after `n` iterations of the `while (zResult != Z_STREAM_END)`
loop of `ChunkNBT::ChunkNBT`, where `initRes` is the `inflateInit` result
and `res k` the value returned by the `k`-th call to `inflate` (the zlib
library is external; its results are an oracle parameter).  Once the loop
guard fails the value is frozen. -/
def chunkInflateZResult (initRes : Int) (res : Nat → Int) : Nat → Int
  | 0 => initRes
  | n + 1 =>
    if chunkInflateZResult initRes res n = zStreamEnd then
      chunkInflateZResult initRes res n
    else inflateStepResult (res n)

/-- Decidable equality for decoder/reader results, used to evaluate the
model on concrete inputs. -/
instance exceptDecEq {ε α : Type} [DecidableEq ε] [DecidableEq α] :
    DecidableEq (Except ε α) := fun a b =>
  match a, b with
  | .error e, .error e2 =>
    if h : e = e2 then .isTrue (by rw [h])
    else .isFalse (by intro hc; cases hc; exact h rfl)
  | .ok x, .ok y =>
    if h : x = y then .isTrue (by rw [h])
    else .isFalse (by intro hc; cases hc; exact h rfl)
  | .error _, .ok _ => .isFalse (by intro hc; cases hc)
  | .ok _, .error _ => .isFalse (by intro hc; cases hc)

/-- The spec scenario buffer: a named byte-array "Biomes" with raw payload
bytes [1, -127, 4] (0x81 is the byte encoding of -127). -/
def c4buf : List Nat := [7, 0, 6] ++ strBytes "Biomes" ++ [0, 0, 0, 3, 1, 129, 4]

/-- `n` named byte child entries (kind 1, empty name, value 5), the children
of the tracked structure compound in the structure-presence family. -/
def childBlocks : Nat → List Nat
  | 0 => []
  | n + 1 => [1, 0, 0, 5] ++ childBlocks n

/-- Compounds "Structures", then "References", then the recognized structure
"Monument": after this prefix the decoder tracks Monument inside the
structure-references section. -/
def structuresDemoPre : List Nat :=
  [10, 0, 10] ++ strBytes "Structures" ++ [10, 0, 10] ++ strBytes "References"
    ++ [10, 0, 8] ++ strBytes "Monument"

/-- The structure-presence family: a tracked "Monument" compound with `n`
child entries, then the three closing tags. -/
def structuresDemoBuf (n : Nat) : List Nat :=
  structuresDemoPre ++ (childBlocks n ++ [0, 0, 0])

/-- A decoder state inside an active biome element sequence. -/
def biomeCtxSt : PSt := { initPSt with inBiomeList := true }

/-- The decoder state after the three compound openings of
`structuresDemoPre`: the references section is active and "Monument" is the
tracked structure. -/
def c5MidSt : PSt :=
  { idx := 37, openTags := [strBytes "Monument", kReferences, kStructures],
    lastUpdate := 0, inhabitedTime := 0, inBiomeList := false,
    inStructRefs := true, currentStruct := 4,
    currentStructName := strBytes "Monument", biomes := [], structures := [] }

/-- Region file for the short-payload-read scenario: entries 0 and 1 both
present with sector offset 1 and sector count 8; the chunk header at byte
4096 declares length 100 and compression type 2, but only 5 payload bytes
(of value 9) exist before the file ends at 4106. -/
def c2file : MFile :=
  { size := 4106,
    data := fun j =>
      if j = 2 then 1 else if j = 3 then 8
      else if j = 6 then 1 else if j = 7 then 8
      else if j = 4099 then 100 else if j = 4100 then 2
      else if 4101 ≤ j ∧ j ≤ 4105 then 9 else 0 }

/-- The payload handed to ChunkNBT in the short-read scenario: the 5 bytes
that were read, zero-padded to the declared length 100. -/
def c2payload : List Nat := List.replicate 5 9 ++ List.replicate 95 0

/-- Region file family for the compression-marker and length scenarios:
entry 0 present (offset sector 1, count 8), chunk header declares length 10,
compression-type byte `c`, followed by exactly 10 payload bytes 1..10. -/
def c36file (c : Nat) : MFile :=
  { size := 4111,
    data := fun j =>
      if j = 2 then 1 else if j = 3 then 8
      else if j = 4099 then 10 else if j = 4100 then c
      else if 4101 ≤ j ∧ j ≤ 4110 then j - 4100 else 0 }

/-- The 10 = L payload bytes read in the c36file scenarios. -/
def c36payload : List Nat := [1, 2, 3, 4, 5, 6, 7, 8, 9, 10]

/-- Region file for the offset-boundary scenario: entry 0 present with
sector offset 2, sector count 1, so its byte offset 8192 equals the file
size exactly. -/
def c7file : MFile :=
  { size := 8192, data := fun j => if j = 2 then 2 else if j = 3 then 1 else 0 }

/-- An empty region file. -/
def fileNoBytes : MFile := { size := 0, data := fun _ => 0 }

set_option maxRecDepth 1000000

/- ===== Helper lemmas ===== -/

theorem byteAt_append_right (l r : List Nat) (k : Nat) :
    byteAt (l ++ r) (l.length + k) = byteAt r k := by
  unfold byteAt
  rw [List.getD_append_right _ _ _ _ (Nat.le_add_right _ _),
    Nat.add_sub_cancel_left]

theorem readRaw_append_right (w : Nat) (l r : List Nat) :
    ∀ (k acc : Nat), readRaw w (l ++ r) (l.length + k) acc =
      ((readRaw w r k acc).1, l.length + (readRaw w r k acc).2) := by
  induction w with
  | zero => intro k acc; simp [readRaw]
  | succ w ih =>
    intro k acc
    simp only [readRaw, List.length_append]
    by_cases h : k < r.length
    · rw [if_pos (by omega), if_pos h, byteAt_append_right]
      have h2 : l.length + k + 1 = l.length + (k + 1) := by omega
      rw [h2, ih]
    · rw [if_neg (by omega), if_neg h]

theorem readSigned_append_right (w : Nat) (l r : List Nat) (k : Nat) :
    readSigned w (l ++ r) (l.length + k) =
      ((readSigned w r k).1, l.length + (readSigned w r k).2) := by
  rcases hrw : readRaw w r k 0 with ⟨o, j⟩
  cases o <;> simp [readSigned, readRaw_append_right, hrw]

theorem readSigned_append_len (w : Nat) (l r : List Nat) :
    readSigned w (l ++ r) l.length =
      ((readSigned w r 0).1, l.length + (readSigned w r 0).2) := by
  have h := readSigned_append_right w l r 0
  simpa using h

/- Branch equations of the dispatch, all definitional. -/

theorem parseTagF_k0 (f : Nat) (nm : Bool) (buf : List Nat) (st : PSt) :
    parseTagF (f + 1) 0 nm buf st = tagEnd st := rfl

theorem parseTagF_k1 (f : Nat) (nm : Bool) (buf : List Nat) (st : PSt) :
    parseTagF (f + 1) 1 nm buf st = tagByte nm buf st := rfl

theorem parseTagF_k2 (f : Nat) (nm : Bool) (buf : List Nat) (st : PSt) :
    parseTagF (f + 1) 2 nm buf st = tagShort nm buf st := rfl

theorem parseTagF_k3 (f : Nat) (nm : Bool) (buf : List Nat) (st : PSt) :
    parseTagF (f + 1) 3 nm buf st = tagInt nm buf st := rfl

theorem parseTagF_k4 (f : Nat) (nm : Bool) (buf : List Nat) (st : PSt) :
    parseTagF (f + 1) 4 nm buf st = tagLong nm buf st := rfl

theorem parseTagF_k7 (f : Nat) (nm : Bool) (buf : List Nat) (st : PSt) :
    parseTagF (f + 1) 7 nm buf st
      = tagByteArray (fun s => parseTagF f 1 false buf s) nm buf st := rfl

theorem parseTagF_k9 (f : Nat) (nm : Bool) (buf : List Nat) (st : PSt) :
    parseTagF (f + 1) 9 nm buf st
      = tagList (fun t s => if dispatchDefined t then parseTagF f t false buf s
                            else .error .badDispatch) nm buf st := rfl

theorem parseTagF_k10 (f : Nat) (nm : Bool) (buf : List Nat) (st : PSt) :
    parseTagF (f + 1) 10 nm buf st = tagCompound nm buf st := rfl

theorem parseTagF_k11 (f : Nat) (nm : Bool) (buf : List Nat) (st : PSt) :
    parseTagF (f + 1) 11 nm buf st
      = tagIntArray (fun s => parseTagF f 3 false buf s) nm buf st := rfl

theorem parseTagF_k12 (f : Nat) (nm : Bool) (buf : List Nat) (st : PSt) :
    parseTagF (f + 1) 12 nm buf st
      = tagLongArray (fun s => parseTagF f 4 false buf s) nm buf st := rfl

/-- Destructing a successful `exSeq`. -/
theorem exSeq_ok {A B : Type} (x : Except DErr A) (f : A → Except DErr B)
    (b : B) (h : exSeq x f = .ok b) : ∃ a, x = .ok a ∧ f a = .ok b := by
  cases x with
  | error e => simp [exSeq] at h
  | ok a => exact ⟨a, rfl, h⟩

/-- A successful element loop preserves any state component the step
preserves. -/
theorem parseManyAux_keeps {α : Type} (g : PSt → α)
    (step : PSt → Except DErr PSt)
    (hstep : ∀ s s2, step s = .ok s2 → g s2 = g s) :
    ∀ (c : Nat) (s s2 : PSt), parseManyAux step c s = .ok s2 → g s2 = g s := by
  intro c
  induction c with
  | zero => intro s s2 h; cases h; rfl
  | succ c ih =>
    intro s s2 h
    simp only [parseManyAux] at h
    obtain ⟨st2, hst, h⟩ := exSeq_ok _ _ _ h
    try simp only [] at h
    rw [ih _ _ h, hstep _ _ hst]

/- The handlers never touch the structure set: that is modified only by the
top-level loop. -/

theorem tagEnd_structures (st st' : PSt) (h : tagEnd st = .ok st') :
    st'.structures = st.structures := by
  unfold tagEnd at h
  repeat' split at h
  all_goals (cases h <;> rfl)

theorem tagByte_structures (nm : Bool) (buf : List Nat) (st st' : PSt)
    (h : tagByte nm buf st = .ok st') : st'.structures = st.structures := by
  unfold tagByte at h
  obtain ⟨nj, hn, h⟩ := exSeq_ok _ _ _ h
  try simp only [] at h
  split at h
  all_goals (cases h <;> rfl)

theorem tagShort_structures (nm : Bool) (buf : List Nat) (st st' : PSt)
    (h : tagShort nm buf st = .ok st') : st'.structures = st.structures := by
  unfold tagShort at h
  obtain ⟨nj, hn, h⟩ := exSeq_ok _ _ _ h
  try simp only [] at h
  split at h
  all_goals (cases h <;> rfl)

theorem tagInt_structures (nm : Bool) (buf : List Nat) (st st' : PSt)
    (h : tagInt nm buf st = .ok st') : st'.structures = st.structures := by
  unfold tagInt at h
  obtain ⟨nj, hn, h⟩ := exSeq_ok _ _ _ h
  try simp only [] at h
  split at h
  all_goals (cases h <;> rfl)

theorem tagLong_structures (nm : Bool) (buf : List Nat) (st st' : PSt)
    (h : tagLong nm buf st = .ok st') : st'.structures = st.structures := by
  unfold tagLong at h
  obtain ⟨nj, hn, h⟩ := exSeq_ok _ _ _ h
  try simp only [] at h
  repeat' split at h
  all_goals (cases h <;> rfl)

theorem tagFloat_structures (nm : Bool) (buf : List Nat) (st st' : PSt)
    (h : tagFloat nm buf st = .ok st') : st'.structures = st.structures := by
  unfold tagFloat at h
  obtain ⟨nj, hn, h⟩ := exSeq_ok _ _ _ h
  cases h <;> rfl

theorem tagDouble_structures (nm : Bool) (buf : List Nat) (st st' : PSt)
    (h : tagDouble nm buf st = .ok st') : st'.structures = st.structures := by
  unfold tagDouble at h
  obtain ⟨nj, hn, h⟩ := exSeq_ok _ _ _ h
  cases h <;> rfl

theorem tagString_structures (nm : Bool) (buf : List Nat) (st st' : PSt)
    (h : tagString nm buf st = .ok st') : st'.structures = st.structures := by
  unfold tagString at h
  obtain ⟨nj, hn, h⟩ := exSeq_ok _ _ _ h
  try simp only [] at h
  obtain ⟨vj, hv, h⟩ := exSeq_ok _ _ _ h
  cases h <;> rfl

theorem tagCompound_structures (nm : Bool) (buf : List Nat) (st st' : PSt)
    (h : tagCompound nm buf st = .ok st') : st'.structures = st.structures := by
  unfold tagCompound at h
  obtain ⟨nj, hn, h⟩ := exSeq_ok _ _ _ h
  try simp only [] at h
  repeat' split at h
  all_goals (cases h <;> rfl)

theorem tagByteArray_structures (step : PSt → Except DErr PSt)
    (hstep : ∀ s s2, step s = .ok s2 → s2.structures = s.structures)
    (nm : Bool) (buf : List Nat) (st st' : PSt)
    (h : tagByteArray step nm buf st = .ok st') :
    st'.structures = st.structures := by
  unfold tagByteArray at h
  obtain ⟨nj, hn, h⟩ := exSeq_ok _ _ _ h
  try simp only [] at h
  obtain ⟨st2, hpm, h⟩ := exSeq_ok _ _ _ h
  cases h
  have hk := parseManyAux_keeps PSt.structures _ hstep _ _ _ hpm
  exact hk

theorem tagIntArray_structures (step : PSt → Except DErr PSt)
    (hstep : ∀ s s2, step s = .ok s2 → s2.structures = s.structures)
    (nm : Bool) (buf : List Nat) (st st' : PSt)
    (h : tagIntArray step nm buf st = .ok st') :
    st'.structures = st.structures := by
  unfold tagIntArray at h
  obtain ⟨nj, hn, h⟩ := exSeq_ok _ _ _ h
  try simp only [] at h
  obtain ⟨st2, hpm, h⟩ := exSeq_ok _ _ _ h
  cases h
  have hk := parseManyAux_keeps PSt.structures _ hstep _ _ _ hpm
  exact hk

theorem tagLongArray_structures (step : PSt → Except DErr PSt)
    (hstep : ∀ s s2, step s = .ok s2 → s2.structures = s.structures)
    (nm : Bool) (buf : List Nat) (st st' : PSt)
    (h : tagLongArray step nm buf st = .ok st') :
    st'.structures = st.structures := by
  unfold tagLongArray at h
  obtain ⟨nj, hn, h⟩ := exSeq_ok _ _ _ h
  try simp only [] at h
  have hk := parseManyAux_keeps PSt.structures _ hstep _ _ _ h
  exact hk

theorem tagList_structures (step : Int → PSt → Except DErr PSt)
    (hstep : ∀ t s s2, step t s = .ok s2 → s2.structures = s.structures)
    (nm : Bool) (buf : List Nat) (st st' : PSt)
    (h : tagList step nm buf st = .ok st') :
    st'.structures = st.structures := by
  unfold tagList at h
  obtain ⟨nj, hn, h⟩ := exSeq_ok _ _ _ h
  try simp only [] at h
  obtain ⟨st2, hpm, h⟩ := exSeq_ok _ _ _ h
  cases h
  have hk := parseManyAux_keeps PSt.structures _ (hstep _) _ _ _ hpm
  exact hk

theorem parseTagF_structures :
    ∀ (fuel : Nat) (k : Int) (nm : Bool) (buf : List Nat) (st st' : PSt),
      parseTagF fuel k nm buf st = .ok st' → st'.structures = st.structures := by
  intro fuel
  induction fuel with
  | zero => intro k nm buf st st' h; cases h
  | succ f ih =>
    intro k nm buf st st' h
    simp only [parseTagF] at h
    by_cases h0 : k = 0
    · rw [if_pos h0] at h; exact tagEnd_structures _ _ h
    rw [if_neg h0] at h
    by_cases h1 : k = 1
    · rw [if_pos h1] at h; exact tagByte_structures _ _ _ _ h
    rw [if_neg h1] at h
    by_cases h2 : k = 2
    · rw [if_pos h2] at h; exact tagShort_structures _ _ _ _ h
    rw [if_neg h2] at h
    by_cases h3 : k = 3
    · rw [if_pos h3] at h; exact tagInt_structures _ _ _ _ h
    rw [if_neg h3] at h
    by_cases h4 : k = 4
    · rw [if_pos h4] at h; exact tagLong_structures _ _ _ _ h
    rw [if_neg h4] at h
    by_cases h5 : k = 5
    · rw [if_pos h5] at h; exact tagFloat_structures _ _ _ _ h
    rw [if_neg h5] at h
    by_cases h6 : k = 6
    · rw [if_pos h6] at h; exact tagDouble_structures _ _ _ _ h
    rw [if_neg h6] at h
    by_cases h7 : k = 7
    · rw [if_pos h7] at h
      exact tagByteArray_structures _ (fun s s2 hh => ih _ _ _ _ _ hh) _ _ _ _ h
    rw [if_neg h7] at h
    by_cases h8 : k = 8
    · rw [if_pos h8] at h; exact tagString_structures _ _ _ _ h
    rw [if_neg h8] at h
    by_cases h9 : k = 9
    · rw [if_pos h9] at h
      refine tagList_structures _ (fun t s s2 hh => ?_) _ _ _ _ h
      by_cases hd : dispatchDefined t = true
      · rw [if_pos hd] at hh; exact ih _ _ _ _ _ hh
      · rw [if_neg hd] at hh; cases hh
    rw [if_neg h9] at h
    by_cases h10 : k = 10
    · rw [if_pos h10] at h; exact tagCompound_structures _ _ _ _ h
    rw [if_neg h10] at h
    by_cases h11 : k = 11
    · rw [if_pos h11] at h
      exact tagIntArray_structures _ (fun s s2 hh => ih _ _ _ _ _ hh) _ _ _ _ h
    rw [if_neg h11] at h
    exact tagLongArray_structures _ (fun s s2 hh => ih _ _ _ _ _ hh) _ _ _ _ h

theorem setInsert_nodup (s : List Int) (x : Int) (h : s.Nodup) :
    (setInsert s x).Nodup := by
  unfold setInsert
  split
  · exact h
  · rename_i hx
    simp [List.nodup_append, h, hx]

theorem mainLoop_structures_nodup :
    ∀ (fuel inner : Nat) (buf : List Nat) (st st' : PSt),
      mainLoop inner fuel buf st = .ok st' → st.structures.Nodup →
      st'.structures.Nodup := by
  intro fuel
  induction fuel with
  | zero => intro inner buf st st' h hn; cases h
  | succ f ih =>
    intro inner buf st st' h hn
    simp only [mainLoop] at h
    obtain ⟨st3, hct, h⟩ := exSeq_ok _ _ _ h
    try simp only [] at h
    have hn3 : st3.structures.Nodup := by
      unfold callTag at hct
      split at hct
      · rw [parseTagF_structures _ _ _ _ _ _ hct]
        split
        · exact setInsert_nodup _ _ hn
        · exact hn
      · cases hct
    split at h
    · exact ih _ _ _ _ h hn3
    · cases h; exact hn3

theorem getChunkData_structures_nodup (buf : List Nat) (pos : Int × Int)
    (cd : ChunkDataM) (h : getChunkDataF buf pos = .ok cd) :
    cd.structures.Nodup := by
  unfold getChunkDataF at h
  obtain ⟨st, hml, h⟩ := exSeq_ok _ _ _ h
  cases h
  exact mainLoop_structures_nodup _ _ _ _ _ hml (by simp [initPSt])

/- ===== Flag behavior of the array/list handlers ===== -/

theorem tagByteArray_flag (step : PSt → Except DErr PSt) (nm : Bool)
    (buf : List Nat) (st st' : PSt) (h : tagByteArray step nm buf st = .ok st') :
    st'.inBiomeList = false := by
  unfold tagByteArray at h
  obtain ⟨nj, hn, h⟩ := exSeq_ok _ _ _ h
  try simp only [] at h
  obtain ⟨st2, hpm, h⟩ := exSeq_ok _ _ _ h
  cases h
  rfl

theorem tagIntArray_flag (step : PSt → Except DErr PSt) (nm : Bool)
    (buf : List Nat) (st st' : PSt) (h : tagIntArray step nm buf st = .ok st') :
    st'.inBiomeList = false := by
  unfold tagIntArray at h
  obtain ⟨nj, hn, h⟩ := exSeq_ok _ _ _ h
  try simp only [] at h
  obtain ⟨st2, hpm, h⟩ := exSeq_ok _ _ _ h
  cases h
  rfl

theorem tagList_flag (step : Int → PSt → Except DErr PSt) (nm : Bool)
    (buf : List Nat) (st st' : PSt) (h : tagList step nm buf st = .ok st') :
    st'.inBiomeList = false := by
  unfold tagList at h
  obtain ⟨nj, hn, h⟩ := exSeq_ok _ _ _ h
  try simp only [] at h
  obtain ⟨st2, hpm, h⟩ := exSeq_ok _ _ _ h
  cases h
  rfl

theorem tagLong_flag (nm : Bool) (buf : List Nat) (st st' : PSt)
    (h : tagLong nm buf st = .ok st') : st'.inBiomeList = st.inBiomeList := by
  unfold tagLong at h
  obtain ⟨nj, hn, h⟩ := exSeq_ok _ _ _ h
  try simp only [] at h
  repeat' split at h
  all_goals (cases h <;> rfl)

theorem parseTagF_tLong_flag (fuel : Nat) (nm : Bool) (buf : List Nat)
    (st st' : PSt) (h : parseTagF fuel 4 nm buf st = .ok st') :
    st'.inBiomeList = st.inBiomeList := by
  cases fuel with
  | zero => cases h
  | succ f => rw [parseTagF_k4] at h; exact tagLong_flag _ _ _ _ h

theorem tagLongArray_flag (step : PSt → Except DErr PSt)
    (hstep : ∀ s s2, step s = .ok s2 → s2.inBiomeList = s.inBiomeList)
    (nm : Bool) (buf : List Nat) (st st' : PSt)
    (h : tagLongArray step nm buf st = .ok st') :
    st'.inBiomeList = st.inBiomeList := by
  unfold tagLongArray at h
  obtain ⟨nj, hn, h⟩ := exSeq_ok _ _ _ h
  try simp only [] at h
  have hk := parseManyAux_keeps PSt.inBiomeList _ hstep _ _ _ h
  exact hk

/- ===== The fold law of the biome quirk ===== -/

theorem foldBiomeGo_spec :
    ∀ (n : Nat) (v : Int), -v ≤ (n : Int) →
      ∃ k : Nat, foldBiomeGo n v = v + 128 * k ∧ 0 ≤ foldBiomeGo n v ∧
        ∀ j : Nat, 0 ≤ v + 128 * (j : Int) → k ≤ j := by
  intro n
  induction n with
  | zero =>
    intro v hv
    refine ⟨0, by simp [foldBiomeGo], ?_, fun j hj => Nat.zero_le j⟩
    simp only [foldBiomeGo]
    omega
  | succ n ih =>
    intro v hv
    by_cases hneg : v < 0
    · obtain ⟨k, h1, h2, h3⟩ := ih (v + 128) (by push_cast; omega)
      refine ⟨k + 1, ?_, ?_, ?_⟩
      · simp only [foldBiomeGo, if_pos hneg]
        rw [h1]
        push_cast
        ring
      · simp only [foldBiomeGo, if_pos hneg]
        exact h2
      · intro j hj
        obtain ⟨j2, rfl⟩ : ∃ j2, j = j2 + 1 := by
          refine ⟨j - 1, ?_⟩
          rcases Nat.eq_zero_or_pos j with hj0 | hj0
          · subst hj0; simp at hj; omega
          · omega
        have hle := h3 j2 (by push_cast at hj ⊢; omega)
        omega
    · refine ⟨0, by simp [foldBiomeGo, hneg], ?_, fun j hj => Nat.zero_le j⟩
      simp only [foldBiomeGo]
      split <;> omega

theorem foldBiomeVal_spec (v : Int) :
    ∃ k : Nat, foldBiomeVal v = v + 128 * k ∧ 0 ≤ foldBiomeVal v ∧
      ∀ j : Nat, 0 ≤ v + 128 * (j : Int) → k ≤ j :=
  foldBiomeGo_spec _ v (Int.self_le_toNat (-v))

/- ===== Claim theorems ===== -/

/-- C1: the claim says decompression of a corrupt or truncated payload
terminates, reports, and aborts only the chunk.  The loop
`while (zResult != Z_STREAM_END)` in `ChunkNBT::ChunkNBT` exits only on
`Z_STREAM_END`; when the zlib oracle never reports stream end (as on a
corrupt or truncated stream, which yields `Z_DATA_ERROR`/`Z_BUF_ERROR` on
every call), the loop guard holds after every iteration, so the loop never
terminates. -/
theorem c1_corrupt_stream_inflate_loop_never_exits
    (initRes : Int) (res : Nat → Int)
    (hinit : initRes ≠ zStreamEnd) (hres : ∀ n, res n ≠ zStreamEnd) :
    ∀ n, chunkInflateZResult initRes res n ≠ zStreamEnd := by
  intro n
  induction n with
  | zero => exact hinit
  | succ n ih =>
    simp only [chunkInflateZResult]
    rw [if_neg ih]
    unfold inflateStepResult
    split
    · unfold zStreamEnd; omega
    · exact hres n

/-- Witness: the constant `Z_BUF_ERROR` oracle (a truncated stream) keeps
the loop running through iteration 5. -/
theorem c1_corrupt_stream_inflate_loop_never_exits_witness :
    chunkInflateZResult 0 (fun _ => -5) 5 ≠ zStreamEnd :=
  c1_corrupt_stream_inflate_loop_never_exits 0 (fun _ => -5) (by decide)
    (fun _ => (by decide : (-5 : Int) ≠ zStreamEnd)) 5

/-- C3 counterexample: entry 0 of `c36file 3` carries the unsupported
compression-type marker 3, yet the reader hands its payload to the decoder
and appends a chunk for it instead of reporting and skipping. -/
theorem c3_unsupported_marker_still_appends_cex :
    mcaLoadEntries (strBytes "r.0.0.mca") (c36file 3)
      = .ok [((0, 0), c36payload)] := by decide

/-- C3 amended: the compression-type byte is read but never inspected: the
run with unsupported marker 3 equals the run with supported marker 2, and
both append the entry. -/
theorem c3_compression_marker_never_validated :
    mcaLoadEntries (strBytes "r.0.0.mca") (c36file 3)
      = mcaLoadEntries (strBytes "r.0.0.mca") (c36file 2)
    ∧ mcaLoadEntries (strBytes "r.0.0.mca") (c36file 2)
      = .ok [((0, 0), c36payload)] :=
  ⟨by decide, by decide⟩

/-- C6 counterexample: `c36file 2` declares length L = 10 and the reader
reads 10 = L payload bytes (1..10) after the compression-type byte, not
L - 1 = 9. -/
theorem c6_reads_L_bytes_cex :
    mcaLoadEntries (strBytes "r.0.0.mca") (c36file 2)
      = .ok [((0, 0), c36payload)]
    ∧ c36payload.length = 10 :=
  ⟨by decide, by decide⟩

/-- C6 amended: the declared 4-byte length is used unchanged as the payload
size: the buffer handed to decompression always has exactly that length
(zero-padded if short), and in the concrete scenario all 10 = L bytes after
the marker are read. -/
theorem c6_payload_buffer_length_is_L :
    (∀ (f : MFile) (n : Nat) (fs : FS), (readChunkPayload f n fs).1.length = n)
    ∧ (mcaLoadEntries (strBytes "r.0.0.mca") (c36file 2)
        = .ok [((0, 0), [1, 2, 3, 4, 5, 6, 7, 8, 9, 10])]) := by
  constructor
  · intro f n fs
    unfold readChunkPayload readBytesS
    repeat' split
    all_goals simp
    all_goals omega
  · decide

/-- C7 counterexample: entry 0 of `c7file` has byte offset
2 × 4096 = 8192 equal to the file size; the claim says it must be
discarded, but the reader passes it (the check is strict `>`), seeks to
end of file, reads a zero header and appends an empty-payload chunk. -/
theorem c7_offset_equal_size_not_discarded_cex :
    mcaLoadEntries (strBytes "r.0.0.mca") c7file = .ok [((0, 0), [])] := by
  decide

/-- C7 amended: a present entry is discarded by the offset check only when
sector_offset × 4096 (32-bit) strictly exceeds the file size; an offset
equal to the file size passes the check and the entry still produces a
chunk. -/
theorem c7_entry_skipped_only_beyond_file_size :
    (∀ (f : MFile) (rx ry : Int) (tb : Nat → Nat) (br i : Nat) (fs : FS),
        f.size < (tb (4 * i) * 65536 + tb (4 * i + 1) * 256 + tb (4 * i + 2))
            * 4096 % 2 ^ 32 →
        processEntry f rx ry tb br i fs = (none, fs))
    ∧ mcaLoadEntries (strBytes "r.0.0.mca") c7file = .ok [((0, 0), [])] := by
  constructor
  · intro f rx ry tb br i fs hoff
    unfold processEntry
    dsimp only
    repeat' split
    all_goals first | rfl | omega
  · decide

/-- Witness for the skip direction: a one-past-the-end offset entry in an
empty file is dropped with the stream untouched. -/
theorem c7_entry_skipped_only_beyond_file_size_witness :
    processEntry fileNoBytes 0 0 (fun _ => 1) 4 0
        { pos := 0, eofb := false, failb := false }
      = (none, { pos := 0, eofb := false, failb := false }) :=
  c7_entry_skipped_only_beyond_file_size.1 fileNoBytes 0 0 (fun _ => 1) 4 0
    { pos := 0, eofb := false, failb := false } (by decide)

/-- C9 counterexample: the filename "-.0.mca" passes the positional checks
(first numeric character, two dots found), but its first coordinate
substring is the lone character "-", on which `std::stoi` throws
`std::invalid_argument`; the exception escapes the reader instead of the
reported empty return the claim requires. -/
theorem c9_stoi_exception_escapes_cex :
    mcaLoadEntries (strBytes "-.0.mca") fileNoBytes = .error .stoiInvalid := by
  decide

/-- C9 amended: when the positional scan fails (no numeric character or a
missing dot) the reader reports and returns the empty sequence, and a
well-formed name parses into region coordinates scaled by 32; but when the
scan succeeds and `std::stoi` cannot parse the substring, the exception
escapes the constructor. -/
theorem c9_filename_parse_behavior :
    (∀ f : MFile, mcaLoadEntries (strBytes "region.mca") f = .ok [])
    ∧ parseRegionCoords (strBytes "-.0.mca") = .error .stoiInvalid
    ∧ parseRegionCoords (strBytes "r.3.-2.mca") = .ok (some (96, -64))
    ∧ (∀ (nm : List Nat) (f : MFile), parseRegionCoords nm = .ok none →
        mcaLoadEntries nm f = .ok []) := by
  refine ⟨fun f => rfl, by decide, by decide, fun nm f h => ?_⟩
  unfold mcaLoadEntries
  rw [h]

/-- Witness: a coordinate-free filename yields the reported empty result. -/
theorem c9_filename_parse_behavior_witness :
    mcaLoadEntries (strBytes "zone.mca") fileNoBytes = .ok [] :=
  c9_filename_parse_behavior.2.2.2 (strBytes "zone.mca") fileNoBytes (by decide)

/-- C10: the dispatch table holds a handler exactly for the 13 tag kinds
0..12: for those `parseTag[k]` runs the handler, for any other dispatched
kind the lookup yields the empty default handler and invoking it throws,
aborting the decode; concretely, a buffer whose named-entry kind byte is 13
and one whose list element-kind byte is 13 both abort with the thrown
dispatch error. -/
theorem c10_dispatch_totality :
    (∀ k : Int, 0 ≤ k → k ≤ 12 →
        ∀ (fuel : Nat) (nm : Bool) (buf : List Nat) (st : PSt),
          callTag fuel k nm buf st = parseTagF fuel k nm buf st)
    ∧ (∀ k : Int, k < 0 ∨ 12 < k →
        ∀ (fuel : Nat) (nm : Bool) (buf : List Nat) (st : PSt),
          callTag fuel k nm buf st = .error .badDispatch)
    ∧ getChunkDataF [13] (0, 0) = .error .badDispatch
    ∧ getChunkDataF [9, 0, 0, 13, 0, 0, 0, 1] (0, 0) = .error .badDispatch := by
  refine ⟨fun k h1 h2 fuel nm buf st => ?_, fun k hk fuel nm buf st => ?_,
    by decide, by decide⟩
  · unfold callTag
    rw [if_pos]
    simp only [dispatchDefined, decide_eq_true_eq]
    exact ⟨h1, h2⟩
  · unfold callTag
    rw [if_neg]
    intro hc
    simp only [dispatchDefined, decide_eq_true_eq] at hc
    omega

/-- Witness: kind 5 dispatches to its handler, kind 13 aborts. -/
theorem c10_dispatch_totality_witness :
    callTag 3 5 true [] initPSt = parseTagF 3 5 true [] initPSt
    ∧ callTag 3 13 true [] initPSt = .error .badDispatch :=
  ⟨c10_dispatch_totality.1 5 (by decide) (by decide) 3 true [] initPSt,
   c10_dispatch_totality.2.1 13 (by omega) 3 true [] initPSt⟩

/-- C8 counterexample: an unnamed byte-array entry parsed while the biome
flag is set leaves the flag `false` afterwards, not the prior `true` the
claim requires to be restored. -/
theorem c8_flag_restore_cex :
    (parseTagF 5 7 false [0, 0, 0, 0] biomeCtxSt).map PSt.inBiomeList
      = .ok false
    ∧ biomeCtxSt.inBiomeList = true :=
  ⟨by decide, rfl⟩

/-- C8 amended: after a byte-array, list, or int-array entry the biome flag
is unconditionally cleared (false regardless of its prior value, so an
entry nested inside an outer biome context destroys the outer context
rather than restoring it); a long-array entry leaves the flag unchanged. -/
theorem c8_biome_flag_cleared_not_restored :
    (∀ (fuel : Nat) (k : Int) (nm : Bool) (buf : List Nat) (st st' : PSt),
        k = 7 ∨ k = 9 ∨ k = 11 →
        parseTagF fuel k nm buf st = .ok st' → st'.inBiomeList = false)
    ∧ (∀ (fuel : Nat) (nm : Bool) (buf : List Nat) (st st' : PSt),
        parseTagF fuel 12 nm buf st = .ok st' →
        st'.inBiomeList = st.inBiomeList) := by
  constructor
  · intro fuel k nm buf st st' hk h
    cases fuel with
    | zero => cases h
    | succ f =>
      rcases hk with rfl | rfl | rfl
      · rw [parseTagF_k7] at h; exact tagByteArray_flag _ _ _ _ _ h
      · rw [parseTagF_k9] at h; exact tagList_flag _ _ _ _ _ h
      · rw [parseTagF_k11] at h; exact tagIntArray_flag _ _ _ _ _ h
  · intro fuel nm buf st st' h
    cases fuel with
    | zero => cases h
    | succ f =>
      rw [parseTagF_k12] at h
      exact tagLongArray_flag _
        (fun s s2 hh => parseTagF_tLong_flag _ _ _ _ _ hh) _ _ _ _ h

/-- Witness: the byte-array case applied to the biome-context state. -/
theorem c8_biome_flag_cleared_not_restored_witness :
    ({ biomeCtxSt with idx := 4, inBiomeList := false } : PSt).inBiomeList
      = false :=
  c8_biome_flag_cleared_not_restored.1 5 7 false [0, 0, 0, 0] biomeCtxSt
    { biomeCtxSt with idx := 4, inBiomeList := false } (Or.inl rfl) (by decide)

/-- C4: the biome fold law and the spec scenario.  Part 1: the fold yields
raw + 128·k for the least k ≥ 0 making the value non-negative.  Part 2: in
an active biome context a byte or int sample is recorded folded, a short
sample raw.  Part 3: the "Biomes" byte-array with raw bytes [1, -127, 4]
yields the histogram mapping 1 to 2 and 4 to 1. -/
theorem c4_biome_fold_law :
    (∀ v : Int, ∃ k : Nat, foldBiomeVal v = v + 128 * k ∧ 0 ≤ foldBiomeVal v ∧
        ∀ j : Nat, 0 ≤ v + 128 * (j : Int) → k ≤ j)
    ∧ (∀ (f : Nat) (buf : List Nat) (st : PSt), st.inBiomeList = true →
        parseTagF (f + 1) 1 false buf st = .ok { st with idx := (readSigned 1 buf st.idx).2, biomes := st.biomes ++ [foldBiomeVal (readSigned 1 buf st.idx).1] }
        ∧ parseTagF (f + 1) 3 false buf st = .ok { st with idx := (readSigned 4 buf st.idx).2, biomes := st.biomes ++ [foldBiomeVal (readSigned 4 buf st.idx).1] }
        ∧ parseTagF (f + 1) 2 false buf st = .ok { st with idx := (readSigned 2 buf st.idx).2, biomes := st.biomes ++ [(readSigned 2 buf st.idx).1] })
    ∧ getChunkDataF c4buf (0, 0) = .ok { pos := (0, 0), inhabitedTime := 0, lastUpdate := 0, biomeCounts := [(1, 2), (4, 1)], structures := [] } := by
  refine ⟨foldBiomeVal_spec, ?_, by decide⟩
  intro f buf st hb
  refine ⟨?_, ?_, ?_⟩
  · rw [parseTagF_k1]; simp [tagByte, readNameF, exSeq, hb]
  · rw [parseTagF_k3]; simp [tagInt, readNameF, exSeq, hb]
  · rw [parseTagF_k2]; simp [tagShort, readNameF, exSeq, hb]

/-- Witness: -127 folds to 1 in one step, and a short sample is recorded
raw even when negative. -/
theorem c4_biome_fold_law_witness :
    foldBiomeVal (-127) = 1
    ∧ (parseTagF 1 2 false [255, 255] biomeCtxSt).map PSt.biomes
        = .ok [(-1 : Int)] := by
  constructor
  · obtain ⟨k, h1, h2, h3⟩ := c4_biome_fold_law.1 (-127)
    have hk1 : k ≤ 1 := h3 1 (by norm_num)
    have hk0 : (0 : Int) ≤ -127 + 128 * k := h1 ▸ h2
    have : k = 1 := by omega
    subst this
    rw [h1]
    norm_num
  · rw [(c4_biome_fold_law.2.1 0 [255, 255] biomeCtxSt rfl).2.2]
    decide

/-- C2 counterexample: entries 0 and 1 of `c2file` are both present; the
payload read of entry 0 is short (5 of 100 declared bytes), yet the reader
appends a chunk for it (decoded from the zero-padded buffer) and the
failed stream then makes entry 1 vanish as well — instead of "report,
skip, continue with the next entry". -/
theorem c2_short_read_skip_cex :
    mcaLoadEntries (strBytes "r.0.0.mca") c2file = .ok [((0, 0), c2payload)] := by
  decide

/-- C2 amended: a short payload read is reported, but the entry is not
skipped: the zero-padded partial buffer of the declared length is handed
to decompression and a chunk is appended for the entry, with the stream
left in the eof/fail state (so the following entries fail their seek and
are skipped). -/
theorem c2_short_payload_read_still_appends :
    (∀ (f : MFile) (n : Nat) (fs : FS), fs.eofb = false → fs.failb = false →
        f.size - fs.pos < n →
        readChunkPayload f n fs = ((List.range (f.size - fs.pos)).map (fun k => f.data (fs.pos + k) % 256) ++ List.replicate (n - (f.size - fs.pos)) 0, { pos := fs.pos + (f.size - fs.pos), eofb := true, failb := true }))
    ∧ mcaLoadEntries (strBytes "r.0.0.mca") c2file = .ok [((0, 0), c2payload)]
    ∧ c2payload = List.replicate 5 9 ++ List.replicate 95 0 := by
  refine ⟨?_, by decide, rfl⟩
  intro f n fs he hf hlt
  unfold readChunkPayload readBytesS
  rw [if_neg (by simp [he]), if_neg (by simp [hf])]
  dsimp only
  have hmin : min n (f.size - fs.pos) = f.size - fs.pos := by omega
  simp only [hmin]
  rw [if_pos hlt]

/-- Witness: the short payload read of the scenario file sets failbit and
pads to the declared length. -/
theorem c2_short_payload_read_still_appends_witness :
    (readChunkPayload c2file 100 { pos := 4101, eofb := false, failb := false }).2.failb = true
    ∧ (readChunkPayload c2file 100 { pos := 4101, eofb := false, failb := false }).1.length = 100 := by
  have h := c2_short_payload_read_still_appends.1 c2file 100
    { pos := 4101, eofb := false, failb := false } rfl rfl (by decide)
  rw [h]
  exact ⟨rfl, by decide⟩

theorem byteAt_append_left (l r : List Nat) (i : Nat) (h : i < l.length) :
    byteAt (l ++ r) i = byteAt l i := by
  unfold byteAt
  rw [List.getD_append _ _ _ _ h]

theorem readRaw_append_left :
    ∀ (w : Nat) (l r : List Nat) (i acc : Nat), i + w ≤ l.length →
      readRaw w (l ++ r) i acc = readRaw w l i acc := by
  intro w
  induction w with
  | zero => intro l r i acc h; rfl
  | succ w ih =>
    intro l r i acc h
    have hi : i < l.length := by omega
    simp only [readRaw, List.length_append]
    rw [if_pos (by omega), if_pos hi, byteAt_append_left _ _ _ hi,
      ih _ _ _ _ (by omega)]

theorem readSigned_append_left (w : Nat) (l r : List Nat) (i : Nat)
    (h : i + w ≤ l.length) :
    readSigned w (l ++ r) i = readSigned w l i := by
  unfold readSigned
  rw [readRaw_append_left _ _ _ _ _ h]

theorem readRaw_snd_inbounds :
    ∀ (w : Nat) (l : List Nat) (i acc : Nat), i + w ≤ l.length →
      (readRaw w l i acc).2 = i + w := by
  intro w
  induction w with
  | zero => intro l i acc h; rfl
  | succ w ih =>
    intro l i acc h
    simp only [readRaw]
    rw [if_pos (by omega), ih _ _ _ (by omega)]
    omega

theorem readSigned_snd_inbounds (w : Nat) (l : List Nat) (i : Nat)
    (h : i + w ≤ l.length) : (readSigned w l i).2 = i + w := by
  unfold readSigned
  rcases hr : readRaw w l i 0 with ⟨o, j⟩
  have h2 := readRaw_snd_inbounds w l i 0 h
  rw [hr] at h2
  cases o <;> simpa using h2

theorem readNameChars_append_left :
    ∀ (cnt : Nat) (l r : List Nat) (i : Nat) (acc : List Nat),
      i + cnt ≤ l.length →
      readNameChars cnt (l ++ r) i acc = readNameChars cnt l i acc := by
  intro cnt
  induction cnt with
  | zero => intro l r i acc h; rfl
  | succ cnt ih =>
    intro l r i acc h
    simp only [readNameChars]
    rw [readSigned_append_left 1 l r i (by omega)]
    have hj : (readSigned 1 l i).2 = i + 1 :=
      readSigned_snd_inbounds 1 l i (by omega)
    rw [hj, ih _ _ _ _ (by omega)]

theorem readNameF_append_left (l r : List Nat) (i : Nat)
    (h2 : i + 2 ≤ l.length)
    (hlen : i + 2 + (readSigned 2 l i).1.toNat ≤ l.length) :
    readNameF true (l ++ r) i = readNameF true l i := by
  unfold readNameF
  rw [readSigned_append_left 2 l r i h2]
  rcases hr : readSigned 2 l i with ⟨len, j⟩
  have hj : j = i + 2 := by
    have := readSigned_snd_inbounds 2 l i h2
    rw [hr] at this
    simpa using this
  rw [hr] at hlen
  subst hj
  simp only []
  split
  · split
    · rfl
    · rw [readNameChars_append_left _ _ _ _ _ (by simpa using hlen)]
  · rfl

/-- One unfolding of the top-level loop. -/
theorem mainLoop_step (inner fl : Nat) (buf : List Nat) (st : PSt) :
    mainLoop inner (fl + 1) buf st
      = exSeq (callTag inner (readSigned 1 buf st.idx).1 true buf
          (if st.inStructRefs ∧ st.currentStruct ≠ -1 ∧ (readSigned 1 buf st.idx).1 ≠ 0 then { st with idx := (readSigned 1 buf st.idx).2, structures := setInsert st.structures st.currentStruct } else { st with idx := (readSigned 1 buf st.idx).2 }))
        (fun st3 => if st3.openTags ≠ [] ∧ st3.idx < buf.length then mainLoop inner fl buf st3 else .ok st3) := rfl

theorem c5_child_step (m fl : Nat) (pre rest : List Nat) (st : PSt)
    (hidx : st.idx = pre.length) (hsr : st.inStructRefs = true)
    (hcs : st.currentStruct = 4) (hbm : st.inBiomeList = false)
    (hstack : st.openTags ≠ []) (hrest : rest ≠ []) :
    mainLoop (m + 1) (fl + 1) (pre ++ ([1, 0, 0, 5] ++ rest)) st
      = mainLoop (m + 1) fl (pre ++ ([1, 0, 0, 5] ++ rest))
          { st with idx := pre.length + 4, structures := setInsert st.structures 4 } := by
  have e1 : readSigned 1 ([1, 0, 0, 5] ++ rest) 0 = (1, 1) := by
    simp [readSigned, readRaw, byteAt, toSigned]
  have e2 : readSigned 2 ([1, 0, 0, 5] ++ rest) 1 = (0, 3) := by
    simp [readSigned, readRaw, byteAt, toSigned]
  have e3 : readSigned 1 ([1, 0, 0, 5] ++ rest) 3 = (5, 4) := by
    simp [readSigned, readRaw, byteAt, toSigned]
  have hA : readSigned 1 (pre ++ ([1, 0, 0, 5] ++ rest)) st.idx
      = (1, pre.length + 1) := by
    rw [hidx, readSigned_append_len, e1]
  have hB : readNameF true (pre ++ ([1, 0, 0, 5] ++ rest)) (pre.length + 1)
      = .ok ([], pre.length + 3) := by
    unfold readNameF
    rw [readSigned_append_right, e2]
    simp [readNameChars]
  have hC : readSigned 1 (pre ++ ([1, 0, 0, 5] ++ rest)) (pre.length + 3)
      = (5, pre.length + 4) := by
    rw [readSigned_append_right, e3]
  have hlen : (pre ++ ([1, 0, 0, 5] ++ rest)).length
      = pre.length + 4 + rest.length := by
    simp [List.length_append]
    omega
  rw [mainLoop_step, hA]
  try dsimp only
  rw [if_pos ⟨hsr, by rw [hcs]; decide, by decide⟩]
  unfold callTag
  rw [if_pos (by decide)]
  rw [parseTagF_k1]
  unfold tagByte
  try dsimp only
  rw [hB]
  simp only [exSeq]
  try dsimp only
  rw [hC]
  try dsimp only
  rw [if_neg (by simp [hbm])]
  try dsimp only
  rw [if_pos ⟨hstack, by rw [hlen]; have := List.length_pos.mpr hrest; omega⟩]
  rw [hcs]

theorem c5_ends_run (m fl : Nat) (pre : List Nat) (st : PSt)
    (hidx : st.idx = pre.length)
    (hstack : st.openTags = [strBytes "Monument", kReferences, kStructures])
    (hsr : st.inStructRefs = true)
    (hcsn : st.currentStructName = strBytes "Monument") :
    mainLoop (m + 1) (fl + 1 + 1 + 1) (pre ++ [0, 0, 0]) st
      = .ok { st with idx := pre.length + 3, openTags := [], inStructRefs := false, currentStruct := -1, currentStructName := [] } := by
  have e0 : readSigned 1 ([0, 0, 0] : List Nat) 0 = (0, 1) := by
    simp [readSigned, readRaw, byteAt, toSigned]
  have e1 : readSigned 1 ([0, 0, 0] : List Nat) 1 = (0, 2) := by
    simp [readSigned, readRaw, byteAt, toSigned]
  have e2 : readSigned 1 ([0, 0, 0] : List Nat) 2 = (0, 3) := by
    simp [readSigned, readRaw, byteAt, toSigned]
  have hA0 : readSigned 1 (pre ++ [0, 0, 0]) st.idx = (0, pre.length + 1) := by
    rw [hidx, readSigned_append_len, e0]
  have hA1 : readSigned 1 (pre ++ [0, 0, 0]) (pre.length + 1)
      = (0, pre.length + 2) := by
    rw [readSigned_append_right, e1]
  have hA2 : readSigned 1 (pre ++ [0, 0, 0]) (pre.length + 2)
      = (0, pre.length + 3) := by
    rw [readSigned_append_right, e2]
  have hlen : (pre ++ [0, 0, 0]).length = pre.length + 3 := by
    simp
  rw [mainLoop_step, hA0]
  try dsimp only
  rw [if_neg (by simp)]
  unfold callTag
  rw [if_pos (by decide), parseTagF_k0]
  unfold tagEnd
  try dsimp only
  rw [hstack]
  try dsimp only
  rw [if_neg (fun hc => absurd hc.2 (by decide))]
  rw [if_pos ⟨hsr, by rw [hcsn]⟩]
  simp only [exSeq]
  try dsimp only
  rw [if_pos ⟨by simp, by rw [hlen]; omega⟩]
  rw [mainLoop_step]
  try dsimp only
  rw [hA1]
  try dsimp only
  rw [if_neg (by simp)]
  unfold callTag
  rw [if_pos (by decide), parseTagF_k0]
  unfold tagEnd
  try dsimp only
  rw [if_pos ⟨hsr, rfl⟩]
  simp only [exSeq]
  try dsimp only
  rw [if_pos ⟨by simp, by rw [hlen]; omega⟩]
  rw [mainLoop_step]
  try dsimp only
  rw [hA2]
  try dsimp only
  rw [if_neg (by simp)]
  unfold callTag
  rw [if_pos (by decide), parseTagF_k0]
  unfold tagEnd
  try dsimp only
  rw [if_neg (by simp)]
  rw [if_neg (by simp)]
  simp only [exSeq]
  try dsimp only
  rw [if_neg (by simp)]

theorem setInsert_idem (s : List Int) (x : Int) :
    setInsert (setInsert s x) x = setInsert s x := by
  by_cases h : x ∈ s
  · simp [setInsert, h]
  · simp [setInsert, h]

theorem c5_children_run :
    ∀ (n : Nat) (m fl : Nat) (pre : List Nat) (st : PSt),
      st.idx = pre.length →
      st.openTags = [strBytes "Monument", kReferences, kStructures] →
      st.inStructRefs = true → st.currentStruct = 4 →
      st.currentStructName = strBytes "Monument" →
      st.inBiomeList = false →
      mainLoop (m + 1) (fl + 1 + 1 + 1 + n) (pre ++ (childBlocks n ++ [0, 0, 0])) st
        = .ok { st with idx := pre.length + 4 * n + 3, openTags := [], inStructRefs := false, currentStruct := -1, currentStructName := [], structures := if n = 0 then st.structures else setInsert st.structures 4 } := by
  intro n
  induction n with
  | zero =>
    intro m fl pre st h1 h2 h3 h4 h5 h6
    have he := c5_ends_run m fl pre st h1 h2 h3 h5
    simp only [childBlocks, List.nil_append, Nat.add_zero, Nat.mul_zero]
    norm_num
    exact he
  | succ n ih =>
    intro m fl pre st h1 h2 h3 h4 h5 h6
    have hbuf : pre ++ (childBlocks (n + 1) ++ [0, 0, 0])
        = pre ++ ([1, 0, 0, 5] ++ (childBlocks n ++ [0, 0, 0])) := by
      simp [childBlocks, List.append_assoc]
    rw [hbuf]
    rw [show fl + 1 + 1 + 1 + (n + 1) = (fl + 1 + 1 + 1 + n) + 1 from rfl]
    rw [c5_child_step m (fl + 1 + 1 + 1 + n) pre (childBlocks n ++ [0, 0, 0])
      st h1 h3 h4 h6 (by rw [h2]; simp) (by simp)]
    have hbuf2 : pre ++ ([1, 0, 0, 5] ++ (childBlocks n ++ [0, 0, 0]))
        = (pre ++ [1, 0, 0, 5]) ++ (childBlocks n ++ [0, 0, 0]) := by
      rw [List.append_assoc]
    rw [hbuf2]
    rw [ih m fl (pre ++ [1, 0, 0, 5])
      { st with idx := pre.length + 4, structures := setInsert st.structures 4 }
      (by simp) (by exact h2) (by exact h3) (by exact h4) (by exact h5)
      (by exact h6)]
    obtain ⟨idx0, ot0, lu0, it0, ib0, isr0, cs0, csn0, bi0, str0⟩ := st
    simp only [Except.ok.injEq, PSt.mk.injEq, List.length_append, true_and, and_true]
    constructor
    · simp; omega
    · by_cases hn : n = 0
      · subst hn; norm_num
      · simp [hn, setInsert_idem]

theorem c5_prefix_run (m fl F : Nat) (rest : List Nat) (hrest : rest ≠ [])
    (hF : F = fl + 3) :
    mainLoop (m + 1) F (structuresDemoPre ++ rest) initPSt
      = mainLoop (m + 1) fl (structuresDemoPre ++ rest) c5MidSt := by
  subst hF
  rw [show fl + 3 = fl + 1 + 1 + 1 from rfl]
  have hp : structuresDemoPre.length = 37 := by decide
  have hLlen : (structuresDemoPre ++ rest).length = 37 + rest.length := by
    rw [List.length_append, hp]
  have hT0 : readSigned 1 (structuresDemoPre ++ rest) initPSt.idx
      = (10, 1) := by
    have h0 : initPSt.idx = 0 := rfl
    rw [h0, readSigned_append_left 1 _ _ _ (by rw [hp]; omega)]
    decide
  have hT13 : readSigned 1 (structuresDemoPre ++ rest) 13 = (10, 14) := by
    rw [readSigned_append_left 1 _ _ _ (by rw [hp]; omega)]
    decide
  have hT26 : readSigned 1 (structuresDemoPre ++ rest) 26 = (10, 27) := by
    rw [readSigned_append_left 1 _ _ _ (by rw [hp]; omega)]
    decide
  have hN1 : readNameF true (structuresDemoPre ++ rest) 1
      = .ok (strBytes "Structures", 13) := by
    rw [readNameF_append_left _ _ _ (by rw [hp]; omega) (by rw [hp]; decide)]
    decide
  have hN14 : readNameF true (structuresDemoPre ++ rest) 14
      = .ok (kReferences, 26) := by
    rw [readNameF_append_left _ _ _ (by rw [hp]; omega) (by rw [hp]; decide)]
    decide
  have hN27 : readNameF true (structuresDemoPre ++ rest) 27
      = .ok (strBytes "Monument", 37) := by
    rw [readNameF_append_left _ _ _ (by rw [hp]; omega) (by rw [hp]; decide)]
    decide
  rw [mainLoop_step, hT0]
  try dsimp only
  rw [if_neg (by decide)]
  unfold callTag
  rw [if_pos (by decide), parseTagF_k10]
  unfold tagCompound
  try dsimp only
  rw [hN1]
  simp only [exSeq]
  try dsimp only
  rw [if_neg (by decide), if_neg (by decide)]
  simp only [exSeq]
  try dsimp only
  rw [if_pos ⟨by decide, by rw [hLlen]; omega⟩]
  rw [mainLoop_step]
  try dsimp only
  rw [hT13]
  try dsimp only
  rw [if_neg (by decide)]
  unfold callTag
  rw [if_pos (by decide), parseTagF_k10]
  unfold tagCompound
  try dsimp only
  rw [hN14]
  simp only [exSeq]
  try dsimp only
  rw [if_neg (by decide), if_pos (by decide)]
  simp only [exSeq]
  try dsimp only
  rw [if_pos ⟨by decide, by rw [hLlen]; omega⟩]
  rw [mainLoop_step]
  try dsimp only
  rw [hT26]
  try dsimp only
  rw [if_neg (by decide)]
  unfold callTag
  rw [if_pos (by decide), parseTagF_k10]
  unfold tagCompound
  try dsimp only
  rw [hN27]
  simp only [exSeq]
  try dsimp only
  rw [if_pos (by decide)]
  simp only [exSeq]
  try dsimp only
  rw [if_pos ⟨by decide, by rw [hLlen]; have := List.length_pos.mpr hrest; omega⟩]
  congr 1

theorem childBlocks_length : ∀ n, (childBlocks n).length = 4 * n := by
  intro n
  induction n with
  | zero => rfl
  | succ n ih =>
    show ([1, 0, 0, 5] ++ childBlocks n).length = 4 * (n + 1)
    rw [List.length_append, ih,
      show ([1, 0, 0, 5] : List Nat).length = 4 from rfl]
    omega

theorem c5_family_run (n : Nat) (hn : 1 ≤ n) :
    (getChunkDataF (structuresDemoBuf n) (0, 0)).map ChunkDataM.structures
      = .ok [4] := by
  have hcb := childBlocks_length n
  have hp : structuresDemoPre.length = 37 := by decide
  have hlen : (structuresDemoBuf n).length = 40 + 4 * n := by
    simp only [structuresDemoBuf, List.length_append, hp, hcb]
    simp
    omega
  have hrest : childBlocks n ++ [0, 0, 0] ≠ [] := by simp
  unfold getChunkDataF
  rw [hlen]
  rw [show 40 + 4 * n + 2 = (41 + 4 * n) + 1 from by omega]
  rw [show structuresDemoBuf n
      = structuresDemoPre ++ (childBlocks n ++ [0, 0, 0]) from rfl]
  rw [c5_prefix_run (41 + 4 * n) (39 + 4 * n) ((41 + 4 * n) + 1) _ hrest
    (by omega)]
  rw [show 39 + 4 * n = (36 + 3 * n) + 1 + 1 + 1 + n from by omega]
  rw [c5_children_run n (41 + 4 * n) (36 + 3 * n) structuresDemoPre c5MidSt
    (by decide) rfl rfl rfl rfl rfl]
  simp only [exSeq]
  try dsimp only
  rw [if_neg (by omega)]
  simp only [Except.map]
  try dsimp only
  decide

/-- C5: structure-once law.  In every successfully decoded chunk each
structure kind appears in the output structure set exactly once (the set
never holds duplicates), and in the structure-presence family — a tracked
"Monument" compound with `n ≥ 1` non-terminator child entries — the
decoded structure set is exactly `[4]` (Monument), independent of `n`. -/
theorem c5_structure_recorded_once :
    (∀ (buf : List Nat) (pos : Int × Int) (cd : ChunkDataM),
        getChunkDataF buf pos = .ok cd →
        ∀ s ∈ cd.structures, cd.structures.count s = 1) ∧
    (∀ n : Nat, 1 ≤ n →
        (getChunkDataF (structuresDemoBuf n) (0, 0)).map ChunkDataM.structures
          = .ok [4]) := by
  constructor
  · intro buf pos cd h s hs
    exact List.count_eq_one_of_mem
      (getChunkData_structures_nodup buf pos cd h) hs
  · exact c5_family_run

/-- C5 witness: the law applied at the concrete two-child Monument buffer:
its decode succeeds with structure set `[4]`, and the count of Monument in
that set is one. -/
theorem c5_structure_recorded_once_witness :
    ([(4 : Int)] : List Int).count 4 = 1
      ∧ (getChunkDataF (structuresDemoBuf 2) (0, 0)).map
          ChunkDataM.structures = .ok [4] := by
  constructor
  · exact c5_structure_recorded_once.1 (structuresDemoBuf 2) (0, 0)
      { pos := (0, 0), inhabitedTime := 0, lastUpdate := 0,
        biomeCounts := [], structures := [4] } (by decide) 4 (by decide)
  · exact c5_structure_recorded_once.2 2 (by decide)

end ChunkAtlas
